import Mathlib

/-!
Verification of the token-lifecycle and rate-governed request pipeline of
the `auth0-management-client` library (source: `src/client.ts`).

The TypeScript class `Auth0ManagementClient` is embedded shallowly:

* the token cache (`getAccessToken`, fields `accessToken`/`tokenExpiry`)
  becomes a pure state-passing function over `TokenState`; the `fetch` of the
  token endpoint becomes an explicit `TokenFetch` input (HTTP status, raw body
  text, parsed JSON payload), and each `Date.now()` observation becomes an
  explicit `Int` argument;
* the rate governor (`waitForRateLimit`, field `requestTimestamps`) becomes a
  function on the timestamp list; the three `Date.now()` observations made by
  one execution are a record `RLTimes`, and the semantics of `sleep` / clock
  monotonicity are captured by the validity predicate `timesValid`;
* the retry pipeline (`request`) becomes a recursion over the retry budget,
  driven by one `AttemptInput` (token-acquisition outcome plus HTTP response)
  per attempt, and it also produces the trace of its observable steps
  (`Ev`: rate-governor admission, token acquisition, HTTP send, sleep,
  JSON parse) so that ordering claims can be stated;
* JavaScript value quirks are modelled faithfully: the truthiness test
  `this.accessToken && …` (`truthyToken`), `parseInt(s, 10)` (`parseIntJS`),
  `s || '1'` on the header string (`headerOr1`) and `n || DEFAULT` on the
  computed delay (`computeSleepMs`).
-/

namespace Auth0

/-! ### Constants (from `client.ts`) -/

/-- `const DEFAULT_RETRY_DELAY = 1000`. -/
def DEFAULT_RETRY_DELAY : Int := 1000

/-- `const MAX_RETRIES = 3`. -/
def MAX_RETRIES : Nat := 3

/-- `const DEFAULT_RATE_LIMIT = 8`. -/
def DEFAULT_RATE_LIMIT : Nat := 8

/-- The fixed 5-minute safety margin `300000` ms used in `getAccessToken`. -/
def SAFETY_MARGIN_MS : Int := 300000

/-- `response.ok` of the Fetch API: status in the range 200..299. -/
def okStatus (status : Nat) : Bool :=
  decide (200 ≤ status) && decide (status < 300)

/-! ### Token cache (`getAccessToken`) -/

/-- The JSON payload of a successful `POST /oauth/token` response
(interface `TokenResponse` in `types.ts`). -/
structure TokenResponse where
  access_token : String
  token_type : String
  expires_in : Int
  scope : Option String
deriving Repr, DecidableEq

/-- The mutable credential fields of `Auth0ManagementClient`:
`accessToken : string | null` and `tokenExpiry : number`. -/
structure TokenState where
  accessToken : Option String
  tokenExpiry : Int
deriving Repr, DecidableEq

/-- Field initializers: `accessToken = null`, `tokenExpiry = 0`. -/
def initialTokenState : TokenState :=
  { accessToken := none, tokenExpiry := 0 }

/-- JavaScript truthiness of `this.accessToken` (a `string | null`):
`null` and the empty string are falsy, every other string is truthy. -/
def truthyToken : Option String → Bool
  | none => false
  | some s => !(s == "")

/-- The error thrown on a non-ok token-endpoint response; it carries
`response.status` and the raw `response.text()`. -/
structure AuthError where
  status : Nat
  bodyText : String
deriving Repr, DecidableEq

/-- The message of the thrown error:
```Failed to get access token: ${response.status} ${error}``` -/
def authErrorMessage (e : AuthError) : String :=
  "Failed to get access token: " ++ toString e.status ++ " " ++ e.bodyText

/-- One observed outcome of `fetch('https://{domain}/oauth/token', …)`:
the HTTP status, the raw body text (read on the error path), and the parsed
JSON payload (read on the success path). -/
structure TokenFetch where
  status : Nat
  bodyText : String
  data : TokenResponse
deriving Repr, DecidableEq

/-- Outcome of one `getAccessToken()` call: the returned token or thrown
error, the credential fields after the call, and how many token-endpoint
network requests the call made (0 or 1). -/
structure TokenCallResult where
  result : Except AuthError String
  state : TokenState
  networkCalls : Nat
deriving Repr

/-- Shallow embedding of `Auth0ManagementClient.getAccessToken`.
`now` is the `Date.now()` observed in the cache test, `acqNow` the
`Date.now()` observed in the expiry assignment after a successful exchange.

```ts
if (this.accessToken && Date.now() < this.tokenExpiry - 300000) {
  return this.accessToken;
}
const response = await fetch(…);
if (!response.ok) {
  const error = await response.text();
  throw new Error(`Failed to get access token: ${response.status} ${error}`);
}
const data = (await response.json()) as TokenResponse;
this.accessToken = data.access_token;
this.tokenExpiry = Date.now() + data.expires_in * 1000;
return this.accessToken;
```

A thrown error leaves `this.accessToken` / `this.tokenExpiry` untouched
(the assignments come after the `throw`), hence `state := st` on that path. -/
def getAccessToken (st : TokenState) (now : Int) (f : TokenFetch) (acqNow : Int) :
    TokenCallResult :=
  if truthyToken st.accessToken && decide (now < st.tokenExpiry - SAFETY_MARGIN_MS) then
    { result := Except.ok (st.accessToken.getD ""), state := st, networkCalls := 0 }
  else if !okStatus f.status then
    { result := Except.error { status := f.status, bodyText := f.bodyText },
      state := st, networkCalls := 1 }
  else
    { result := Except.ok f.data.access_token,
      state := { accessToken := some f.data.access_token,
                 tokenExpiry := acqNow + f.data.expires_in * 1000 },
      networkCalls := 1 }

/-- The inputs of one `getAccessToken()` call: the two clock observations and
the (potential) token-endpoint exchange outcome. -/
structure CallInput where
  now : Int
  fetch : TokenFetch
  acqNow : Int

/-- Run a sequence of `getAccessToken()` calls, threading the credential
state and summing the number of token-endpoint network requests. -/
def runGetAccessToken (st : TokenState) : List CallInput → TokenState × Nat
  | [] => (st, 0)
  | c :: rest =>
    let r := getAccessToken st c.now c.fetch c.acqNow
    let rr := runGetAccessToken r.state rest
    (rr.1, r.networkCalls + rr.2)

/-! ### `retry-after` parsing (`parseInt(h || '1', 10)` and `n * 1000 || 1000`) -/

/-- Whitespace skipped by JavaScript `parseInt`. -/
def jsSpace (c : Char) : Bool :=
  c == ' ' || c == '\t' || c == '\n' || c == '\r'

/-- Longest prefix of decimal digits. -/
def takeDigits : List Char → List Char
  | [] => []
  | c :: cs => if c.isDigit then c :: takeDigits cs else []

/-- Value of a decimal digit string. -/
def digitsToNat (ds : List Char) : Nat :=
  ds.foldl (fun acc c => acc * 10 + (c.toNat - 48)) 0

/-- Sign-and-digits tail of `parseInt`: `none` models `NaN`. -/
def parseIntTail (sign : Int) (cs : List Char) : Option Int :=
  let ds := takeDigits cs
  if ds.isEmpty then none else some (sign * (digitsToNat ds : Int))

/-- JavaScript `parseInt(s, 10)`: skip leading whitespace, read an optional
sign, then the longest prefix of decimal digits; `NaN` (here `none`) when no
digit follows. -/
def parseIntJS (s : String) : Option Int :=
  match s.toList.dropWhile jsSpace with
  | '-' :: rest => parseIntTail (-1) rest
  | '+' :: rest => parseIntTail 1 rest
  | rest => parseIntTail 1 rest

/-- `response.headers.get('retry-after') || '1'`: an absent header
(`null`) and the empty string are falsy and fall back to `'1'`. -/
def headerOr1 : Option String → String
  | none => "1"
  | some s => if s == "" then "1" else s

/-- The milliseconds passed to `sleep` on a 429:
`retryAfter * 1000 || DEFAULT_RETRY_DELAY`.  `NaN` (unparsable header) and
`0` are the only falsy numbers here, so only they select the default;
a negative product passes through unchanged. -/
def computeSleepMs (h : Option String) : Int :=
  match parseIntJS (headerOr1 h) with
  | none => DEFAULT_RETRY_DELAY
  | some n => if n * 1000 == 0 then DEFAULT_RETRY_DELAY else n * 1000

/-! ### Request pipeline (`request`) -/

/-- Observable steps of one `request` execution, in order:
`rateWait` = `await this.waitForRateLimit()`, `tokenGet` =
`await this.getAccessToken()`, `httpSend` = `await fetch(url, …)`,
`sleepMs d` = `await this.sleep(d)`, `jsonParse` = `response.json()`. -/
inductive Ev where
  | rateWait
  | tokenGet
  | httpSend
  | sleepMs (ms : Int)
  | jsonParse
deriving Repr, DecidableEq

/-- One HTTP response of a resource endpoint: status, the optional
`retry-after` header value, and the raw body text. -/
structure HttpResp where
  status : Nat
  retryAfter : Option String
  bodyText : String
deriving Repr, DecidableEq

/-- The environment of one pipeline attempt: the outcome of
`getAccessToken()` (which may throw an `AuthError`) and the HTTP response
received for the attempt. -/
structure AttemptInput where
  auth : Except AuthError String
  resp : HttpResp

/-- Terminal outcome of `request` (the parsed JSON result is modelled by the
raw body text it was parsed from). -/
inductive PipeResult where
  | success (bodyText : String)
  | empty
  | apiError (status : Nat) (bodyText : String)
  | authError (e : AuthError)
deriving Repr, DecidableEq

/-- The message of the generic error path:
```Auth0 API error: ${response.status} ${error}``` -/
def apiErrorMessage (status : Nat) (bodyText : String) : String :=
  "Auth0 API error: " ++ toString status ++ " " ++ bodyText

/-- The tail of `request` after the 429-retry branch is not taken:
```ts
if (!response.ok) {
  const error = await response.text();
  throw new Error(`Auth0 API error: ${response.status} ${error}`);
}
if (response.status === 204) { return undefined as T; }
return response.json() as Promise<T>;
```
The produced events include the attempt prefix
`[rateWait, tokenGet, httpSend]`. -/
def classify (r : HttpResp) : List Ev × PipeResult :=
  if !okStatus r.status then
    ([Ev.rateWait, Ev.tokenGet, Ev.httpSend], PipeResult.apiError r.status r.bodyText)
  else if r.status == 204 then
    ([Ev.rateWait, Ev.tokenGet, Ev.httpSend], PipeResult.empty)
  else
    ([Ev.rateWait, Ev.tokenGet, Ev.httpSend, Ev.jsonParse], PipeResult.success r.bodyText)

/-- Shallow embedding of `Auth0ManagementClient.request`, returning the event
trace and the terminal outcome.  `inputs i` drives the `i`-th attempt;
`attempt` is the index of the current attempt, `retries` the remaining
budget.
```ts
await this.waitForRateLimit();
const token = await this.getAccessToken();
const response = await fetch(url, …);
if (response.status === 429 && retries > 0) {
  const retryAfter = parseInt(response.headers.get('retry-after') || '1', 10);
  await this.sleep(retryAfter * 1000 || DEFAULT_RETRY_DELAY);
  return this.request<T>(method, path, body, retries - 1);
}
```
If `getAccessToken` throws, the attempt stops after `[rateWait, tokenGet]`
and the error propagates. -/
def request (inputs : Nat → AttemptInput) (attempt : Nat) : Nat → List Ev × PipeResult
  | Nat.succ k =>
    match (inputs attempt).auth with
    | Except.error e => ([Ev.rateWait, Ev.tokenGet], PipeResult.authError e)
    | Except.ok _ =>
      let r := (inputs attempt).resp
      if r.status == 429 then
        let rest := request inputs (attempt + 1) k
        (Ev.rateWait :: Ev.tokenGet :: Ev.httpSend ::
          Ev.sleepMs (computeSleepMs r.retryAfter) :: rest.1, rest.2)
      else classify r
  | 0 =>
    match (inputs attempt).auth with
    | Except.error e => ([Ev.rateWait, Ev.tokenGet], PipeResult.authError e)
    | Except.ok _ => classify (inputs attempt).resp

/-- Entry point: `retries = MAX_RETRIES` by default. -/
def requestDefault (inputs : Nat → AttemptInput) : List Ev × PipeResult :=
  request inputs 0 MAX_RETRIES

/-- Checks that an event trace is a sequence of attempts, each of which runs
the rate-governor admission, then the token acquisition, then — unless the
token acquisition threw, which ends the trace — the HTTP send; an attempt is
followed by nothing (terminal), by a lone JSON parse (terminal), or by a
sleep and the trace of the next attempt. -/
def wfTrace : List Ev → Bool
  | [Ev.rateWait, Ev.tokenGet] => true
  | [Ev.rateWait, Ev.tokenGet, Ev.httpSend] => true
  | [Ev.rateWait, Ev.tokenGet, Ev.httpSend, Ev.jsonParse] => true
  | Ev.rateWait :: Ev.tokenGet :: Ev.httpSend :: Ev.sleepMs _ :: rest => wfTrace rest
  | _ => false

/-! ### Rate governor (`waitForRateLimit`) -/

/-- `this.requestTimestamps.filter(t => t > now - 1000)`: drop every
timestamp that is at least one second old at instant `now`. -/
def purge (now : Int) (ts : List Int) : List Int :=
  ts.filter (fun t => decide (now - 1000 < t))

/-- The three `Date.now()` observations made by one `waitForRateLimit`
execution: `now1` at entry (`const now = Date.now()`), `now2` at the purge
after the (possible) sleep, `now3` at the final push. When the wait branch is
not taken, `now2` is a phantom observation between `now1` and `now3`. -/
structure RLTimes where
  now1 : Int
  now2 : Int
  now3 : Int
deriving Repr, DecidableEq

/-- `waitTime = oldestTimestamp - windowStart + 10` where
`windowStart = now - 1000` and `oldestTimestamp = this.requestTimestamps[0]`
(0 when the list is empty, in which case the JS code computes `NaN` and
skips the sleep). -/
def waitTimeOf (now1 : Int) (ts1 : List Int) : Int :=
  match ts1.head? with
  | some oldest => oldest - (now1 - 1000) + 10
  | none => 0

/-- Shallow embedding of `Auth0ManagementClient.waitForRateLimit`:
```ts
const now = Date.now();
const windowStart = now - 1000;
this.requestTimestamps = this.requestTimestamps.filter(t => t > windowStart);
if (this.requestTimestamps.length >= this.rateLimitPerSecond) {
  const oldestTimestamp = this.requestTimestamps[0];
  const waitTime = oldestTimestamp - windowStart + 10;
  if (waitTime > 0) { await this.sleep(waitTime); }
  this.requestTimestamps = this.requestTimestamps.filter(t => t > Date.now() - 1000);
}
this.requestTimestamps.push(Date.now());
``` -/
def waitForRateLimit (limit : Nat) (ts : List Int) (tm : RLTimes) : List Int :=
  let ts1 := purge tm.now1 ts
  let ts2 := if limit ≤ ts1.length then purge tm.now2 ts1 else ts1
  ts2 ++ [tm.now3]

/-- Clock/sleep semantics for one execution: the wall clock is monotone
across the three observations and starts no earlier than the previous
observation `tprev`; and when the wait branch is taken with a positive
`waitTime`, `setTimeout` delays at least `waitTime` ms, so the purge after
the sleep observes `now2 ≥ now1 + waitTime`. -/
def timesValid (limit : Nat) (ts : List Int) (tprev : Int) (tm : RLTimes) : Prop :=
  tprev ≤ tm.now1 ∧ tm.now1 ≤ tm.now2 ∧ tm.now2 ≤ tm.now3 ∧
  (limit ≤ (purge tm.now1 ts).length →
    0 < waitTimeOf tm.now1 (purge tm.now1 ts) →
    tm.now1 + waitTimeOf tm.now1 (purge tm.now1 ts) ≤ tm.now2)

/-- Governor state: the live window `ts` (= `this.requestTimestamps`), the
last clock observation `tprev`, and the full history `hist` of admission
timestamps ever recorded (ghost state for the sliding-window invariant). -/
structure RLState where
  ts : List Int
  tprev : Int
  hist : List Int
deriving Repr, DecidableEq

/-- Fresh client: `requestTimestamps = []`, no admissions yet, clock at
`t0`. -/
def initialRLState (t0 : Int) : RLState :=
  { ts := [], tprev := t0, hist := [] }

/-- One sequentially admitted `waitForRateLimit` call: update the window and
record the admitted instant `now3` (exactly once) in the history. -/
def rlStep (limit : Nat) (s : RLState) (tm : RLTimes) : RLState :=
  { ts := waitForRateLimit limit s.ts tm,
    tprev := tm.now3,
    hist := s.hist ++ [tm.now3] }

/-- Run a sequence of admissions. -/
def rlRun (limit : Nat) (s : RLState) : List RLTimes → RLState
  | [] => s
  | tm :: rest => rlRun limit (rlStep limit s tm) rest

/-- All clock observations of a trace are valid, threaded sequentially. -/
def traceValid (limit : Nat) : RLState → List RLTimes → Prop
  | _, [] => True
  | s, tm :: rest =>
    timesValid limit s.ts s.tprev tm ∧ traceValid limit (rlStep limit s tm) rest

instance instDecTimesValid (limit : Nat) (ts : List Int) (tprev : Int) (tm : RLTimes) :
    Decidable (timesValid limit ts tprev tm) := by
  unfold timesValid
  infer_instance

instance instDecTraceValid (limit : Nat) : (s : RLState) → (trace : List RLTimes) →
    Decidable (traceValid limit s trace)
  | _, [] => isTrue trivial
  | s, tm :: rest =>
    haveI : Decidable (traceValid limit (rlStep limit s tm) rest) :=
      instDecTraceValid limit (rlStep limit s tm) rest
    inferInstanceAs (Decidable (_ ∧ _))

/-- Number of admission timestamps inside the trailing 1000 ms window ending
at instant `T` — the half-open interval `(T - 1000, T]`, matching the purge
predicate `t > now - 1000` of the source. -/
def windowCount (hist : List Int) (T : Int) : Nat :=
  hist.countP (fun x => decide (T - 1000 < x) && decide (x ≤ T))

/-- Counting invariant of the governor: the live window never exceeds the
quota; and every history entry newer than `tprev - 1000` is still live, with
multiplicity (stated as equality of `countP` above any cutoff `c ≥
tprev - 1000`); and no trailing 1000 ms window of the history exceeds the
quota. -/
def rlCountInv (limit : Nat) (s : RLState) : Prop :=
  s.ts.length ≤ limit ∧
  (∀ c : Int, s.tprev - 1000 ≤ c →
    s.ts.countP (fun x => decide (c < x)) = s.hist.countP (fun x => decide (c < x))) ∧
  (∀ T : Int, windowCount s.hist T ≤ limit)

/-- Ordering invariant of the governor: the live window is sorted
(non-decreasing) and bounded by the last clock observation. -/
def rlSortedInv (s : RLState) : Prop :=
  s.ts.Chain' (· ≤ ·) ∧ ∀ x ∈ s.ts, x ≤ s.tprev

/-! ### Connectivity self-test (`testConnection`) -/

/-- The structured result of `testConnection`. -/
structure ConnectionTestResult where
  success : Bool
  error : Option String
deriving Repr, DecidableEq

/-- Shallow embedding of `Auth0ManagementClient.testConnection`:
```ts
try {
  await this.getAccessToken();
  await this.listApplications();
  return { success: true };
} catch (error) {
  return { success: false,
           error: error instanceof Error ? error.message : 'Unknown error' };
}
```
The two awaited steps are modelled by their outcomes: the token acquisition
may throw an `AuthError`, and the list-applications probe (which goes through
`request`) may throw the generic API error carrying a status and body text. -/
def testConnection (tok : Except AuthError String)
    (lst : Except (Nat × String) (List String)) : ConnectionTestResult :=
  match tok with
  | Except.error e => { success := false, error := some (authErrorMessage e) }
  | Except.ok _ =>
    match lst with
    | Except.error e => { success := false, error := some (apiErrorMessage e.1 e.2) }
    | Except.ok _ => { success := true, error := none }

/-! ## Theorems -/

/-! Branch lemmas for `getAccessToken`. -/

theorem getAccessToken_hit (st : TokenState) (now : Int) (f : TokenFetch) (acqNow : Int)
    (hs : truthyToken st.accessToken = true)
    (hfresh : now < st.tokenExpiry - SAFETY_MARGIN_MS) :
    getAccessToken st now f acqNow =
      { result := Except.ok (st.accessToken.getD ""), state := st, networkCalls := 0 } := by
  unfold getAccessToken
  rw [if_pos]
  simp [hs, hfresh]

theorem getAccessToken_miss_calls (st : TokenState) (now : Int) (f : TokenFetch) (acqNow : Int)
    (hmiss : ¬ (truthyToken st.accessToken = true ∧ now < st.tokenExpiry - SAFETY_MARGIN_MS)) :
    (getAccessToken st now f acqNow).networkCalls = 1 := by
  unfold getAccessToken
  rw [if_neg]
  · split <;> rfl
  · simp only [Bool.and_eq_true, decide_eq_true_eq]
    exact hmiss

theorem runGetAccessToken_cached (st : TokenState)
    (hs : truthyToken st.accessToken = true) :
    ∀ calls : List CallInput,
      (∀ c ∈ calls, c.now < st.tokenExpiry - SAFETY_MARGIN_MS) →
      runGetAccessToken st calls = (st, 0)
  | [], _ => rfl
  | c :: rest, h => by
    have hc := getAccessToken_hit st c.now c.fetch c.acqNow hs (h c (by simp))
    have ih := runGetAccessToken_cached st hs rest (fun d hd => h d (by simp [hd]))
    simp [runGetAccessToken, hc, ih]

/-- C1: `getAccessToken` returns the cached token with no network call iff a
(truthy) cached token exists and `now < tokenExpiry - 300000`; otherwise it
performs exactly one acquisition.  Boundary: expiry `now + 300000 - 1`
reacquires, expiry `now + 300000 + 1` (with a cached token) does not.  After
one successful acquisition of a non-empty token, every subsequent call whose
`now` is within the safety margin of the new expiry performs zero further
network acquisitions and leaves the state unchanged.  ("A cached token
exists" is the code's own truthiness test: `null` and `""` count as absent.) -/
theorem getAccessToken_cache_policy (st : TokenState) (now : Int) (f : TokenFetch)
    (acqNow : Int) :
    (truthyToken st.accessToken = true → now < st.tokenExpiry - SAFETY_MARGIN_MS →
      getAccessToken st now f acqNow =
        { result := Except.ok (st.accessToken.getD ""), state := st, networkCalls := 0 }) ∧
    (¬ (truthyToken st.accessToken = true ∧ now < st.tokenExpiry - SAFETY_MARGIN_MS) →
      (getAccessToken st now f acqNow).networkCalls = 1) ∧
    (st.tokenExpiry = now + SAFETY_MARGIN_MS - 1 →
      (getAccessToken st now f acqNow).networkCalls = 1) ∧
    (truthyToken st.accessToken = true → st.tokenExpiry = now + SAFETY_MARGIN_MS + 1 →
      (getAccessToken st now f acqNow).networkCalls = 0) ∧
    (∀ calls : List CallInput,
      ¬ (truthyToken st.accessToken = true ∧ now < st.tokenExpiry - SAFETY_MARGIN_MS) →
      okStatus f.status = true →
      f.data.access_token ≠ "" →
      (∀ c ∈ calls, c.now < acqNow + f.data.expires_in * 1000 - SAFETY_MARGIN_MS) →
      runGetAccessToken (getAccessToken st now f acqNow).state calls =
        ((getAccessToken st now f acqNow).state, 0)) := by
  refine ⟨fun hs hf => getAccessToken_hit st now f acqNow hs hf,
          fun h => getAccessToken_miss_calls st now f acqNow h,
          fun hexp => getAccessToken_miss_calls st now f acqNow (by omega),
          fun hs hexp => ?_, fun calls hmiss hok hne hcalls => ?_⟩
  · have hfresh : now < st.tokenExpiry - SAFETY_MARGIN_MS := by
      rw [hexp]; omega
    rw [getAccessToken_hit st now f acqNow hs hfresh]
  · have hstate : (getAccessToken st now f acqNow).state =
        { accessToken := some f.data.access_token,
          tokenExpiry := acqNow + f.data.expires_in * 1000 } := by
      unfold getAccessToken
      rw [if_neg, if_neg]
      · simp [hok]
      · simp only [Bool.and_eq_true, decide_eq_true_eq]
        exact hmiss
    rw [hstate]
    exact runGetAccessToken_cached _ (by simp [truthyToken, hne]) calls hcalls

/-- C1 witness: after acquiring `"tok"` (lifetime 86400 s) at time 0 from the
empty cache, three further calls at times 1000, 2000, 3000 make zero network
calls; and the two boundary instances at expiry `now ± 1` around the margin. -/
theorem getAccessToken_cache_policy_witness :
    (¬ (truthyToken initialTokenState.accessToken = true ∧
        (0 : Int) < initialTokenState.tokenExpiry - SAFETY_MARGIN_MS)) ∧
    okStatus 200 = true ∧
    ("tok" : String) ≠ "" ∧
    runGetAccessToken
        (getAccessToken initialTokenState 0 ⟨200, "", ⟨"tok", "Bearer", 86400, none⟩⟩ 0).state
        [⟨1000, ⟨200, "", ⟨"t2", "Bearer", 86400, none⟩⟩, 1000⟩,
         ⟨2000, ⟨200, "", ⟨"t3", "Bearer", 86400, none⟩⟩, 2000⟩,
         ⟨3000, ⟨200, "", ⟨"t4", "Bearer", 86400, none⟩⟩, 3000⟩] =
      ((getAccessToken initialTokenState 0 ⟨200, "", ⟨"tok", "Bearer", 86400, none⟩⟩ 0).state, 0) ∧
    (getAccessToken ⟨some "tok", 299999⟩ 0 ⟨200, "", ⟨"t2", "Bearer", 86400, none⟩⟩ 0).networkCalls
      = 1 ∧
    (getAccessToken ⟨some "tok", 300001⟩ 0 ⟨200, "", ⟨"t2", "Bearer", 86400, none⟩⟩ 0).networkCalls
      = 0 := by
  refine ⟨by decide, by decide, by decide, ?_, ?_, ?_⟩
  · exact (getAccessToken_cache_policy initialTokenState 0
      ⟨200, "", ⟨"tok", "Bearer", 86400, none⟩⟩ 0).2.2.2.2
      [⟨1000, ⟨200, "", ⟨"t2", "Bearer", 86400, none⟩⟩, 1000⟩,
       ⟨2000, ⟨200, "", ⟨"t3", "Bearer", 86400, none⟩⟩, 2000⟩,
       ⟨3000, ⟨200, "", ⟨"t4", "Bearer", 86400, none⟩⟩, 3000⟩]
      (by decide) (by decide) (by decide) (by decide)
  · exact (getAccessToken_cache_policy ⟨some "tok", 299999⟩ 0
      ⟨200, "", ⟨"t2", "Bearer", 86400, none⟩⟩ 0).2.2.1 (by decide)
  · exact (getAccessToken_cache_policy ⟨some "tok", 300001⟩ 0
      ⟨200, "", ⟨"t2", "Bearer", 86400, none⟩⟩ 0).2.2.2.1 (by decide) (by decide)

/-- C5: when the cache is stale (or empty) and the token exchange answers
with a non-success status, `getAccessToken` fails with an error carrying that
status and the raw body text — whose message textually contains both — and
the cached credential pair is left exactly as it was. -/
theorem getAccessToken_failure_preserves_cache (st : TokenState) (now : Int)
    (f : TokenFetch) (acqNow : Int)
    (hmiss : ¬ (truthyToken st.accessToken = true ∧ now < st.tokenExpiry - SAFETY_MARGIN_MS))
    (hbad : okStatus f.status = false) :
    getAccessToken st now f acqNow =
      { result := Except.error { status := f.status, bodyText := f.bodyText },
        state := st, networkCalls := 1 } ∧
    authErrorMessage { status := f.status, bodyText := f.bodyText } =
      "Failed to get access token: " ++ toString f.status ++ " " ++ f.bodyText := by
  constructor
  · unfold getAccessToken
    rw [if_neg]
    · simp [hbad]
    · simp only [Bool.and_eq_true, decide_eq_true_eq]
      exact hmiss
  · rfl

/-- C5 witness: status 401 with body `"Unauthorized"` from the empty cache:
the failure carries 401 and `"Unauthorized"`, the state is unchanged, and the
message is `"Failed to get access token: 401 Unauthorized"`. -/
theorem getAccessToken_failure_preserves_cache_witness :
    (¬ (truthyToken initialTokenState.accessToken = true ∧
        (0 : Int) < initialTokenState.tokenExpiry - SAFETY_MARGIN_MS)) ∧
    okStatus 401 = false ∧
    getAccessToken initialTokenState 0 ⟨401, "Unauthorized", ⟨"", "", 0, none⟩⟩ 0 =
      { result := Except.error { status := 401, bodyText := "Unauthorized" },
        state := initialTokenState, networkCalls := 1 } ∧
    authErrorMessage { status := 401, bodyText := "Unauthorized" } =
      "Failed to get access token: 401 Unauthorized" := by
  refine ⟨by decide, by decide, ?_, ?_⟩
  · exact (getAccessToken_failure_preserves_cache initialTokenState 0
      ⟨401, "Unauthorized", ⟨"", "", 0, none⟩⟩ 0 (by decide) (by decide)).1
  · have h := (getAccessToken_failure_preserves_cache initialTokenState 0
      ⟨401, "Unauthorized", ⟨"", "", 0, none⟩⟩ 0 (by decide) (by decide)).2
    simpa using h

/-- C6: on a successful exchange the credential pair is replaced in one step:
the new state is exactly `(some data.access_token, acqNow + expires_in * 1000)`
and the new token is returned.  In the source the two field assignments are
adjacent synchronous statements with no suspension point between them, so no
caller can observe an old token paired with a new expiry or vice versa; in
this sequential embedding the update is a single state transition. -/
theorem getAccessToken_success_atomic_update (st : TokenState) (now : Int)
    (f : TokenFetch) (acqNow : Int)
    (hmiss : ¬ (truthyToken st.accessToken = true ∧ now < st.tokenExpiry - SAFETY_MARGIN_MS))
    (hok : okStatus f.status = true) :
    getAccessToken st now f acqNow =
      { result := Except.ok f.data.access_token,
        state := { accessToken := some f.data.access_token,
                   tokenExpiry := acqNow + f.data.expires_in * 1000 },
        networkCalls := 1 } := by
  unfold getAccessToken
  rw [if_neg, if_neg]
  · simp [hok]
  · simp only [Bool.and_eq_true, decide_eq_true_eq]
    exact hmiss

/-- C6 witness: acquiring `{access_token: "tok", expires_in: 86400}` at time
50 from the empty cache yields state `(some "tok", 50 + 86400000)` and
returns `"tok"`. -/
theorem getAccessToken_success_atomic_update_witness :
    (¬ (truthyToken initialTokenState.accessToken = true ∧
        (0 : Int) < initialTokenState.tokenExpiry - SAFETY_MARGIN_MS)) ∧
    okStatus 200 = true ∧
    getAccessToken initialTokenState 0 ⟨200, "", ⟨"tok", "Bearer", 86400, none⟩⟩ 50 =
      { result := Except.ok "tok",
        state := { accessToken := some "tok", tokenExpiry := 50 + 86400 * 1000 },
        networkCalls := 1 } :=
  ⟨by decide, by decide,
   getAccessToken_success_atomic_update initialTokenState 0
     ⟨200, "", ⟨"tok", "Bearer", 86400, none⟩⟩ 50 (by decide) (by decide)⟩

/-! Pipeline step lemmas. -/

theorem wfTrace_classify (r : HttpResp) : wfTrace (classify r).1 = true := by
  unfold classify
  split
  · simp [wfTrace]
  · split <;> simp [wfTrace]

theorem request_retry_step (inputs : Nat → AttemptInput) (attempt k : Nat)
    (t : String) (ht : (inputs attempt).auth = Except.ok t)
    (h429 : (inputs attempt).resp.status = 429) :
    request inputs attempt (k + 1) =
      (Ev.rateWait :: Ev.tokenGet :: Ev.httpSend ::
        Ev.sleepMs (computeSleepMs (inputs attempt).resp.retryAfter) ::
        (request inputs (attempt + 1) k).1,
       (request inputs (attempt + 1) k).2) := by
  simp [request, ht, h429]

theorem request_zero_429 (inputs : Nat → AttemptInput) (attempt : Nat)
    (t : String) (ht : (inputs attempt).auth = Except.ok t)
    (h429 : (inputs attempt).resp.status = 429) :
    request inputs attempt 0 =
      ([Ev.rateWait, Ev.tokenGet, Ev.httpSend],
       PipeResult.apiError 429 (inputs attempt).resp.bodyText) := by
  simp [request, ht, classify, h429, okStatus]

/-- C3 counterexample: the header value `"-5"` parses to `-5`, so the
computed delay `-5000` is non-positive — yet the pipeline passes `-5000` to
`sleep`, not the fixed default `1000`: the `||` fallback fires only on the
falsy numbers `0` and `NaN`, and a negative number is truthy. -/
theorem retry_delay_negative_counterexample :
    parseIntJS "-5" = some (-5) ∧
    computeSleepMs (some "-5") = -5000 ∧
    computeSleepMs (some "-5") ≤ 0 ∧
    computeSleepMs (some "-5") ≠ DEFAULT_RETRY_DELAY ∧
    Ev.sleepMs (-5000) ∈
      (request (fun _ => ⟨Except.ok "tok", ⟨429, some "-5", "limited"⟩⟩) 0 MAX_RETRIES).1 ∧
    Ev.sleepMs DEFAULT_RETRY_DELAY ∉
      (request (fun _ => ⟨Except.ok "tok", ⟨429, some "-5", "limited"⟩⟩) 0 MAX_RETRIES).1 := by
  decide

/-- C3 (amended): on a 429 with retries remaining the pipeline sleeps for
`computeSleepMs retryAfter` milliseconds and re-enters with the budget
decremented by one; an absent header defaults to `"1"` (1000 ms); a header
whose `parseInt` is `NaN` (invalid) or `0` — the two falsy products — falls
back to the fixed default 1000 ms; any other parsed value `n`, including
negative `n`, yields `n * 1000` ms passed to `sleep` unchanged. -/
theorem request_429_retry_delay (inputs : Nat → AttemptInput) (attempt k : Nat)
    (hauth : ∃ t, (inputs attempt).auth = Except.ok t)
    (h429 : (inputs attempt).resp.status = 429) :
    (request inputs attempt (k + 1)).1 =
      Ev.rateWait :: Ev.tokenGet :: Ev.httpSend ::
        Ev.sleepMs (computeSleepMs (inputs attempt).resp.retryAfter) ::
        (request inputs (attempt + 1) k).1 ∧
    (request inputs attempt (k + 1)).2 = (request inputs (attempt + 1) k).2 ∧
    computeSleepMs none = DEFAULT_RETRY_DELAY ∧
    (∀ h, parseIntJS (headerOr1 h) = none → computeSleepMs h = DEFAULT_RETRY_DELAY) ∧
    (∀ h, parseIntJS (headerOr1 h) = some 0 → computeSleepMs h = DEFAULT_RETRY_DELAY) ∧
    (∀ h n, parseIntJS (headerOr1 h) = some n → n ≠ 0 →
      computeSleepMs h = n * 1000) := by
  obtain ⟨t, ht⟩ := hauth
  have e := request_retry_step inputs attempt k t ht h429
  refine ⟨by rw [e], by rw [e], by decide, ?_, ?_, ?_⟩
  · intro h hp
    simp [computeSleepMs, hp]
  · intro h hp
    simp [computeSleepMs, hp]
  · intro h n hp hn
    have hz : ¬ (n * 1000 = 0) := by
      simpa [Int.mul_eq_zero] using hn
    simp [computeSleepMs, hp, hz]

/-- C3 witness: a 429 with `retry-after: 2` and budget 3 sleeps 2000 ms and
re-enters with budget 2. -/
theorem request_429_retry_delay_witness :
    (∃ t, ((fun _ : Nat => (⟨Except.ok "tok", ⟨429, some "2", "limited"⟩⟩ : AttemptInput)) 0).auth
        = Except.ok t) ∧
    ((fun _ : Nat => (⟨Except.ok "tok", ⟨429, some "2", "limited"⟩⟩ : AttemptInput)) 0).resp.status
        = 429 ∧
    (request (fun _ => ⟨Except.ok "tok", ⟨429, some "2", "limited"⟩⟩) 0 (2 + 1)).1 =
      Ev.rateWait :: Ev.tokenGet :: Ev.httpSend :: Ev.sleepMs 2000 ::
        (request (fun _ => ⟨Except.ok "tok", ⟨429, some "2", "limited"⟩⟩) 1 2).1 := by
  refine ⟨⟨"tok", rfl⟩, rfl, ?_⟩
  have h := (request_429_retry_delay
    (fun _ => ⟨Except.ok "tok", ⟨429, some "2", "limited"⟩⟩) 0 2 ⟨"tok", rfl⟩ rfl).1
  have e : computeSleepMs (some "2") = 2000 := by decide
  simpa [e] using h

/-- C4: with the default budget `MAX_RETRIES = 3`, a run in which every
attempt is answered 429 performs exactly 4 HTTP send attempts (3 retries) and
then surfaces the generic API error carrying status 429 and the body text of
the final response instead of retrying further; the embedded recursion is
structurally terminating on the budget. -/
theorem request_429_exhaustion (inputs : Nat → AttemptInput)
    (hauth : ∀ i, ∃ t, (inputs i).auth = Except.ok t)
    (h429 : ∀ i, (inputs i).resp.status = 429) :
    MAX_RETRIES = 3 ∧
    (requestDefault inputs).2 = PipeResult.apiError 429 (inputs 3).resp.bodyText ∧
    (requestDefault inputs).1.count Ev.httpSend = 4 := by
  obtain ⟨t0, h0⟩ := hauth 0
  obtain ⟨t1, h1⟩ := hauth 1
  obtain ⟨t2, h2⟩ := hauth 2
  obtain ⟨t3, h3⟩ := hauth 3
  have s0 := request_retry_step inputs 0 2 t0 h0 (h429 0)
  have s1 := request_retry_step inputs 1 1 t1 h1 (h429 1)
  have s2 := request_retry_step inputs 2 0 t2 h2 (h429 2)
  have s3 := request_zero_429 inputs 3 t3 h3 (h429 3)
  have e : requestDefault inputs =
      (Ev.rateWait :: Ev.tokenGet :: Ev.httpSend ::
        Ev.sleepMs (computeSleepMs (inputs 0).resp.retryAfter) ::
       Ev.rateWait :: Ev.tokenGet :: Ev.httpSend ::
        Ev.sleepMs (computeSleepMs (inputs 1).resp.retryAfter) ::
       Ev.rateWait :: Ev.tokenGet :: Ev.httpSend ::
        Ev.sleepMs (computeSleepMs (inputs 2).resp.retryAfter) ::
       [Ev.rateWait, Ev.tokenGet, Ev.httpSend],
       PipeResult.apiError 429 (inputs 3).resp.bodyText) := by
    rw [requestDefault, show MAX_RETRIES = 2 + 1 from rfl, s0,
        show (2 : Nat) = 1 + 1 from rfl, s1,
        show (1 : Nat) = 0 + 1 from rfl, s2, s3]
  refine ⟨rfl, by rw [e], ?_⟩
  rw [e]
  simp [List.count_cons, List.count_nil]

/-- C4 witness: four 429 responses with body `"limited"` and no header
exhaust the budget and surface the API error `429 "limited"` after 4 sends. -/
theorem request_429_exhaustion_witness :
    (∀ i : Nat, ∃ t,
      ((fun _ : Nat => (⟨Except.ok "tok", ⟨429, none, "limited"⟩⟩ : AttemptInput)) i).auth
        = Except.ok t) ∧
    (∀ i : Nat,
      ((fun _ : Nat => (⟨Except.ok "tok", ⟨429, none, "limited"⟩⟩ : AttemptInput)) i).resp.status
        = 429) ∧
    (requestDefault (fun _ => ⟨Except.ok "tok", ⟨429, none, "limited"⟩⟩)).2 =
      PipeResult.apiError 429 "limited" ∧
    (requestDefault (fun _ => ⟨Except.ok "tok", ⟨429, none, "limited"⟩⟩)).1.count Ev.httpSend
      = 4 := by
  have h := request_429_exhaustion (fun _ => ⟨Except.ok "tok", ⟨429, none, "limited"⟩⟩)
    (fun _ => ⟨"tok", rfl⟩) (fun _ => rfl)
  exact ⟨fun _ => ⟨"tok", rfl⟩, fun _ => rfl, h.2.1, h.2.2⟩

/-- C7: every execution of the pipeline produces a well-formed trace: a
sequence of attempts each of which runs the rate-governor admission first,
then the token acquisition, then the HTTP send — retried attempts included,
so no retry is exempted from rate governance; and each admission records
exactly one timestamp in the governor's history. -/
theorem request_trace_ordered (inputs : Nat → AttemptInput) (attempt retries : Nat) :
    wfTrace (request inputs attempt retries).1 = true ∧
    ∀ (limit : Nat) (s : RLState) (tm : RLTimes),
      (rlStep limit s tm).hist.length = s.hist.length + 1 := by
  refine ⟨?_, fun limit s tm => by simp [rlStep]⟩
  induction retries generalizing attempt with
  | zero =>
    cases hA : (inputs attempt).auth with
    | error e => simp [request, hA, wfTrace]
    | ok t =>
      have e : request inputs attempt 0 = classify (inputs attempt).resp := by
        simp [request, hA]
      rw [e]
      exact wfTrace_classify _
  | succ k ih =>
    cases hA : (inputs attempt).auth with
    | error e => simp [request, hA, wfTrace]
    | ok t =>
      cases hB : ((inputs attempt).resp.status == 429) with
      | false =>
        have e : request inputs attempt (k + 1) = classify (inputs attempt).resp := by
          simp [request, hA, hB]
        rw [e]
        exact wfTrace_classify _
      | true =>
        have e : (request inputs attempt (k + 1)).1 =
            Ev.rateWait :: Ev.tokenGet :: Ev.httpSend ::
              Ev.sleepMs (computeSleepMs (inputs attempt).resp.retryAfter) ::
              (request inputs (attempt + 1) k).1 := by
          simp [request, hA, hB]
        rw [e]
        simpa [wfTrace] using ih (attempt + 1)

/-- C8: an attempt answered with HTTP 204 resolves to the empty result with
the bare trace `[rateWait, tokenGet, httpSend]` — in particular the body is
never JSON-parsed — for every remaining retry budget. -/
theorem request_204_empty (inputs : Nat → AttemptInput) (attempt retries : Nat)
    (hauth : ∃ t, (inputs attempt).auth = Except.ok t)
    (h204 : (inputs attempt).resp.status = 204) :
    request inputs attempt retries =
      ([Ev.rateWait, Ev.tokenGet, Ev.httpSend], PipeResult.empty) ∧
    Ev.jsonParse ∉ (request inputs attempt retries).1 := by
  obtain ⟨t, ht⟩ := hauth
  have e : request inputs attempt retries =
      ([Ev.rateWait, Ev.tokenGet, Ev.httpSend], PipeResult.empty) := by
    cases retries with
    | zero => simp [request, ht, classify, h204, okStatus]
    | succ k => simp [request, ht, classify, h204, okStatus]
  refine ⟨e, ?_⟩
  rw [e]
  decide

/-- C8 witness: a 204 response with full budget resolves empty without a
JSON-parse event. -/
theorem request_204_empty_witness :
    (∃ t, ((fun _ : Nat => (⟨Except.ok "tok", ⟨204, none, ""⟩⟩ : AttemptInput)) 0).auth
        = Except.ok t) ∧
    ((fun _ : Nat => (⟨Except.ok "tok", ⟨204, none, ""⟩⟩ : AttemptInput)) 0).resp.status = 204 ∧
    request (fun _ => ⟨Except.ok "tok", ⟨204, none, ""⟩⟩) 0 MAX_RETRIES =
      ([Ev.rateWait, Ev.tokenGet, Ev.httpSend], PipeResult.empty) := by
  refine ⟨⟨"tok", rfl⟩, rfl, ?_⟩
  exact (request_204_empty (fun _ => ⟨Except.ok "tok", ⟨204, none, ""⟩⟩) 0 MAX_RETRIES
    ⟨"tok", rfl⟩ rfl).1

/-- C9: `testConnection` is total on its two step outcomes — it never
propagates a failure: it returns `{success := true}` when both the token
acquisition and the list-applications probe succeed, and
`{success := false, error := message}` with the failing step's message
whenever either step throws. -/
theorem testConnection_never_throws (tok : Except AuthError String)
    (lst : Except (Nat × String) (List String)) :
    (testConnection tok lst = { success := true, error := none } ∨
      ∃ m, testConnection tok lst = { success := false, error := some m }) ∧
    (∀ t l, tok = Except.ok t → lst = Except.ok l →
      testConnection tok lst = { success := true, error := none }) ∧
    (∀ e, tok = Except.error e →
      testConnection tok lst = { success := false, error := some (authErrorMessage e) }) ∧
    (∀ t e, tok = Except.ok t → lst = Except.error e →
      testConnection tok lst =
        { success := false, error := some (apiErrorMessage e.1 e.2) }) := by
  cases tok with
  | error e =>
    exact ⟨Or.inr ⟨authErrorMessage e, rfl⟩, by simp, fun e' he => by cases he; rfl, by simp⟩
  | ok t =>
    cases lst with
    | error e =>
      refine ⟨Or.inr ⟨apiErrorMessage e.1 e.2, rfl⟩, ?_, by simp, ?_⟩
      · intro t' l' _ hl
        cases hl
      · intro t' e' _ he
        cases he
        rfl
    | ok l =>
      refine ⟨Or.inl rfl, fun _ _ _ _ => rfl, by simp, ?_⟩
      intro t' e' _ he
      cases he

/-- C9 witness: scenario A — token `{access_token: "tok"}` and
list-applications `[]` give `{success := true}`; and a 401 token failure
gives `{success := false}` with the auth message. -/
theorem testConnection_never_throws_witness :
    testConnection (Except.ok "tok") (Except.ok ([] : List String)) =
      { success := true, error := none } ∧
    testConnection (Except.error ⟨401, "Unauthorized"⟩) (Except.ok ([] : List String)) =
      { success := false,
        error := some (authErrorMessage ⟨401, "Unauthorized"⟩) } :=
  ⟨(testConnection_never_throws (Except.ok "tok") (Except.ok [])).2.1 "tok" [] rfl rfl,
   (testConnection_never_throws (Except.error ⟨401, "Unauthorized"⟩)
      (Except.ok [])).2.2.1 ⟨401, "Unauthorized"⟩ rfl⟩

/-! Rate-governor lemmas. -/

theorem countP_purge_eq (nowp c : Int) (l : List Int) (h : nowp - 1000 ≤ c) :
    (purge nowp l).countP (fun x => decide (c < x)) = l.countP (fun x => decide (c < x)) := by
  unfold purge
  rw [List.countP_filter]
  apply List.countP_congr
  intro a _
  by_cases hca : c < a
  · simp [hca, lt_of_le_of_lt h hca]
  · simp [hca]

theorem waitForRateLimit_length (limit : Nat) (hlim : 0 < limit) (ts : List Int) (tm : RLTimes)
    (h12 : tm.now1 ≤ tm.now2)
    (hwait : limit ≤ (purge tm.now1 ts).length →
      0 < waitTimeOf tm.now1 (purge tm.now1 ts) →
      tm.now1 + waitTimeOf tm.now1 (purge tm.now1 ts) ≤ tm.now2)
    (hlen : ts.length ≤ limit) :
    (waitForRateLimit limit ts tm).length ≤ limit := by
  unfold waitForRateLimit
  by_cases hbr : limit ≤ (purge tm.now1 ts).length
  · have hts1len : (purge tm.now1 ts).length = limit :=
      le_antisymm (le_trans (List.length_filter_le _ _) hlen) hbr
    cases hE : (purge tm.now1 ts).head? with
    | none =>
      rw [List.head?_eq_none_iff] at hE
      rw [hE] at hts1len
      simp at hts1len
      omega
    | some oldest =>
      have hwt : waitTimeOf tm.now1 (purge tm.now1 ts) = oldest - (tm.now1 - 1000) + 10 := by
        simp [waitTimeOf, hE]
      have hold : oldest ≤ tm.now2 - 1010 := by
        by_cases hpos : 0 < waitTimeOf tm.now1 (purge tm.now1 ts)
        · have := hwait hbr hpos
          omega
        · omega
      have hdrop : (purge tm.now2 (purge tm.now1 ts)).length < (purge tm.now1 ts).length := by
        apply List.length_filter_lt_length_iff_exists.mpr
        refine ⟨oldest, List.mem_of_mem_head? (by simp [hE]), ?_⟩
        simp only [decide_eq_true_eq]
        omega
      simp only [hbr, if_true, List.length_append]
      simp
      omega
  · simp only [hbr, if_false, List.length_append]
    have : (purge tm.now1 ts).length < limit := Nat.lt_of_not_le hbr
    simp
    omega

theorem waitForRateLimit_countP (limit : Nat) (ts : List Int) (tm : RLTimes)
    (h12 : tm.now1 ≤ tm.now2) (h23 : tm.now2 ≤ tm.now3) (c : Int) (hc : tm.now3 - 1000 ≤ c) :
    (waitForRateLimit limit ts tm).countP (fun x => decide (c < x)) =
      ts.countP (fun x => decide (c < x)) + (if c < tm.now3 then 1 else 0) := by
  unfold waitForRateLimit
  have e1 : (purge tm.now1 ts).countP (fun x => decide (c < x)) =
      ts.countP (fun x => decide (c < x)) :=
    countP_purge_eq _ _ _ (by omega)
  by_cases hbr : limit ≤ (purge tm.now1 ts).length
  · have e2 : (purge tm.now2 (purge tm.now1 ts)).countP (fun x => decide (c < x)) =
        (purge tm.now1 ts).countP (fun x => decide (c < x)) :=
      countP_purge_eq _ _ _ (by omega)
    simp only [hbr, if_true, List.countP_append, e2, e1]
    simp [List.countP_cons]
  · simp only [hbr, if_false, List.countP_append, e1]
    simp [List.countP_cons]

theorem rlCountInv_step (limit : Nat) (hlim : 0 < limit) (s : RLState) (tm : RLTimes)
    (hv : timesValid limit s.ts s.tprev tm) (hinv : rlCountInv limit s) :
    rlCountInv limit (rlStep limit s tm) := by
  obtain ⟨h01, h12, h23, hwait⟩ := hv
  obtain ⟨hlen, hcnt, hwin⟩ := hinv
  have W1 := waitForRateLimit_length limit hlim s.ts tm h12 hwait hlen
  refine ⟨W1, ?_, ?_⟩
  · intro c hc
    have hc3 : tm.now3 - 1000 ≤ c := hc
    have W2 := waitForRateLimit_countP limit s.ts tm h12 h23 c hc3
    have hold := hcnt c (by omega)
    show (waitForRateLimit limit s.ts tm).countP (fun x => decide (c < x)) =
      (s.hist ++ [tm.now3]).countP (fun x => decide (c < x))
    rw [W2, List.countP_append, hold]
    simp [List.countP_cons]
  · intro T
    show windowCount (s.hist ++ [tm.now3]) T ≤ limit
    by_cases hin : T - 1000 < tm.now3 ∧ tm.now3 ≤ T
    · have hTtprev : s.tprev - 1000 ≤ T - 1000 := by omega
      have step1 : windowCount s.hist T ≤ s.hist.countP (fun x => decide (T - 1000 < x)) := by
        unfold windowCount
        apply List.countP_mono_left
        intro x _ hx
        simp only [Bool.and_eq_true, decide_eq_true_eq] at hx
        simp only [decide_eq_true_eq]
        exact hx.1
      have step2 : s.hist.countP (fun x => decide (T - 1000 < x)) =
          s.ts.countP (fun x => decide (T - 1000 < x)) := (hcnt _ hTtprev).symm
      have W2 := waitForRateLimit_countP limit s.ts tm h12 h23 (T - 1000) (by omega)
      have step3 : s.ts.countP (fun x => decide (T - 1000 < x)) + 1 =
          (waitForRateLimit limit s.ts tm).countP (fun x => decide (T - 1000 < x)) := by
        rw [W2]
        simp [hin.1]
      have step4 : (waitForRateLimit limit s.ts tm).countP (fun x => decide (T - 1000 < x)) ≤
          (waitForRateLimit limit s.ts tm).length := List.countP_le_length _
      have eapp : windowCount (s.hist ++ [tm.now3]) T = windowCount s.hist T + 1 := by
        unfold windowCount
        rw [List.countP_append]
        simp [List.countP_cons, hin.1, hin.2]
      rw [eapp]
      omega
    · have eapp : windowCount (s.hist ++ [tm.now3]) T = windowCount s.hist T := by
        unfold windowCount
        rw [List.countP_append]
        have hfalse : (decide (T - 1000 < tm.now3) && decide (tm.now3 ≤ T)) = false := by
          rcases not_and_or.mp hin with h | h <;> simp [h]
        simp [List.countP_cons, hfalse]
      rw [eapp]
      exact hwin T

theorem rlCountInv_run (limit : Nat) (hlim : 0 < limit) :
    ∀ (trace : List RLTimes) (s : RLState),
      traceValid limit s trace → rlCountInv limit s → rlCountInv limit (rlRun limit s trace)
  | [], _, _, hinv => hinv
  | tm :: rest, s, hv, hinv =>
    rlCountInv_run limit hlim rest (rlStep limit s tm) hv.2
      (rlCountInv_step limit hlim s tm hv.1 hinv)

/-- C2: for every sequence of sequentially admitted `waitForRateLimit` calls
with a positive quota, starting from a fresh client, and for every instant
`T`, the trailing 1000 ms window `(T - 1000, T]` (the code's own half-open
window, from the purge predicate `t > now - 1000`) contains at most
`rateLimitPerSecond` recorded admission timestamps.  `traceValid` captures
exactly the clock and `setTimeout` semantics the code relies on: monotone
`Date.now()` and a sleep of at least the computed positive `waitTime`. -/
theorem rateGovernor_window_invariant (limit : Nat) (hlim : 0 < limit) (t0 : Int)
    (trace : List RLTimes) (hv : traceValid limit (initialRLState t0) trace) (T : Int) :
    windowCount (rlRun limit (initialRLState t0) trace).hist T ≤ limit := by
  have h0 : rlCountInv limit (initialRLState t0) := by
    refine ⟨by simp [initialRLState], ?_, ?_⟩
    · intro c _
      rfl
    · intro T2
      simp [initialRLState, windowCount]
  exact (rlCountInv_run limit hlim trace _ hv h0).2.2 T

/-- C2 witness: quota 1, two admissions with clock observations 0 and 1200;
the window ending at 1200 holds one timestamp. -/
theorem rateGovernor_window_invariant_witness :
    (0 < 1) ∧
    traceValid 1 (initialRLState 0) [⟨0, 0, 0⟩, ⟨1200, 1200, 1200⟩] ∧
    windowCount (rlRun 1 (initialRLState 0) [⟨0, 0, 0⟩, ⟨1200, 1200, 1200⟩]).hist 1200 ≤ 1 :=
  ⟨by decide, by decide,
   rateGovernor_window_invariant 1 (by decide) 0 [⟨0, 0, 0⟩, ⟨1200, 1200, 1200⟩] (by decide) 1200⟩

theorem waitForRateLimit_sorted (limit : Nat) (ts : List Int) (tm : RLTimes) (tprev : Int)
    (h01 : tprev ≤ tm.now1) (h13 : tm.now1 ≤ tm.now3)
    (hch : ts.Chain' (· ≤ ·)) (hub : ∀ x ∈ ts, x ≤ tprev) :
    (waitForRateLimit limit ts tm).Chain' (· ≤ ·) ∧
    (∀ x ∈ waitForRateLimit limit ts tm, x ≤ tm.now3) := by
  have main : ∀ ts2 : List Int, ts2.Sublist ts →
      ((ts2 ++ [tm.now3]).Chain' (· ≤ ·) ∧ ∀ x ∈ ts2 ++ [tm.now3], x ≤ tm.now3) := by
    intro ts2 hsub
    have hmem : ∀ x ∈ ts2, x ≤ tm.now3 := by
      intro x hx
      have := hub x (hsub.subset hx)
      omega
    constructor
    · rw [List.chain'_append]
      refine ⟨hch.sublist hsub, List.chain'_singleton _, ?_⟩
      intro x hx y hy
      simp only [List.head?_cons, Option.mem_def, Option.some.injEq] at hy
      subst hy
      exact hmem x (List.mem_of_mem_getLast? hx)
    · intro x hx
      rcases List.mem_append.mp hx with h | h
      · exact hmem x h
      · simp only [List.mem_singleton] at h
        omega
  unfold waitForRateLimit
  by_cases hbr : limit ≤ (purge tm.now1 ts).length
  · simp only [hbr, if_true]
    exact main _ ((List.filter_sublist _).trans (List.filter_sublist _))
  · simp only [hbr, if_false]
    exact main _ (List.filter_sublist _)

theorem rlSortedInv_step (limit : Nat) (s : RLState) (tm : RLTimes)
    (hv : timesValid limit s.ts s.tprev tm) (hinv : rlSortedInv s) :
    rlSortedInv (rlStep limit s tm) := by
  obtain ⟨h01, h12, h23, _⟩ := hv
  have h := waitForRateLimit_sorted limit s.ts tm s.tprev h01 (by omega) hinv.1 hinv.2
  exact ⟨h.1, h.2⟩

theorem rlSortedInv_run (limit : Nat) :
    ∀ (trace : List RLTimes) (s : RLState),
      traceValid limit s trace → rlSortedInv s → rlSortedInv (rlRun limit s trace)
  | [], _, _, hinv => hinv
  | tm :: rest, s, hv, hinv =>
    rlSortedInv_run limit rest (rlStep limit s tm) hv.2 (rlSortedInv_step limit s tm hv.1 hinv)

/-- C10: starting from the fresh (empty) window, every valid sequence of
`waitForRateLimit` executions leaves `requestTimestamps` sorted in
non-decreasing order — each purge is a filter (order-preserving) and the
pushed instant is at least every retained entry — so `requestTimestamps[0]`,
the value used as the oldest remaining timestamp in the wait-time
computation, is the minimum of the window. -/
theorem requestTimestamps_sorted (limit : Nat) (t0 : Int) (trace : List RLTimes)
    (hv : traceValid limit (initialRLState t0) trace) :
    (rlRun limit (initialRLState t0) trace).ts.Chain' (· ≤ ·) ∧
    ∀ h ∈ (rlRun limit (initialRLState t0) trace).ts.head?,
      ∀ x ∈ (rlRun limit (initialRLState t0) trace).ts, h ≤ x := by
  have hrun : rlSortedInv (rlRun limit (initialRLState t0) trace) :=
    rlSortedInv_run limit trace _ hv ⟨List.chain'_nil, by simp [initialRLState]⟩
  refine ⟨hrun.1, ?_⟩
  intro h hh x hx
  have hp : (rlRun limit (initialRLState t0) trace).ts.Pairwise (· ≤ ·) :=
    List.chain'_iff_pairwise.mp hrun.1
  cases e : (rlRun limit (initialRLState t0) trace).ts with
  | nil =>
    rw [e] at hh
    simp at hh
  | cons a l =>
    rw [e] at hh hx hp
    simp only [List.head?_cons, Option.mem_def, Option.some.injEq] at hh
    subst hh
    rcases List.mem_cons.mp hx with h2 | h2
    · exact le_of_eq h2.symm
    · exact (List.pairwise_cons.mp hp).1 x h2

/-- C10 witness: quota 1, two admissions; the final window `[1200]` is sorted
and its head is its minimum. -/
theorem requestTimestamps_sorted_witness :
    traceValid 2 (initialRLState 0) [⟨0, 0, 0⟩, ⟨700, 700, 700⟩, ⟨1100, 1100, 1100⟩] ∧
    (rlRun 2 (initialRLState 0) [⟨0, 0, 0⟩, ⟨700, 700, 700⟩, ⟨1100, 1100, 1100⟩]).ts.Chain'
      (· ≤ ·) :=
  ⟨by decide,
   (requestTimestamps_sorted 2 0 [⟨0, 0, 0⟩, ⟨700, 700, 700⟩, ⟨1100, 1100, 1100⟩] (by decide)).1⟩

end Auth0
